import Mathlib

/-!
Verification of the browser-session orchestration subsystem of the
digital-recruiter repository, against its natural-language specification.

The definitions below are a shallow embedding of the authoritative
TypeScript sources:

  * `src/lib/session.ts`   - session store (cookies, atomic write, mutex)
  * `src/lib/browser.ts`   - browser lifecycle, rate limiter
  * `src/services/linkedinScraper.ts` - extraction pipeline
  * `src/lib/pageReady.ts` - navigation helpers (only indirectly relevant)

Timestamps are integers (milliseconds since epoch, as produced by
`Date.now()`); cookie expiry is in seconds, matching the Puppeteer
`CookieParam.expires` field.  JavaScript strings become `String`,
`undefined`-able fields become `Option`, and fallible async operations
become `Except`.
-/

namespace DigitalRecruiter

/-! ### Session store data model (src/lib/session.ts) -/

/-- One cookie, as in Puppeteer's `CookieParam`: `expires` is seconds since
epoch (`none` models the field being `undefined`); `path` is optional.
Diagnostic-only security flags are elided. -/
structure CookieParam where
  name : String
  value : String
  domain : String
  path : Option String := none
  expires : Option Int := none
deriving DecidableEq, Repr

/-- The domain allow-list `COOKIE_ALLOWED_DOMAINS` from src/lib/session.ts. -/
def COOKIE_ALLOWED_DOMAINS : List String :=
  [".linkedin.com", "linkedin.com", "www.linkedin.com",
   ".www.linkedin.com", ".api.linkedin.com", "api.linkedin.com"]

/-- JavaScript `String.prototype.trim`: strip leading and trailing
whitespace (implemented over the character list so that every proof can
be checked by evaluation). -/
def jsTrim (s : String) : String :=
  String.mk
    (((s.data.dropWhile Char.isWhitespace).reverse.dropWhile
        Char.isWhitespace).reverse)

/-- JavaScript `d.replace(/^\./, '')`: drop a single leading dot. -/
def stripLeadingDot (d : String) : String :=
  match d.data with
  | '.' :: rest => String.mk rest
  | _ => d

/-- Translated from `isExpired` in src/lib/session.ts:
`expires === undefined || expires === 0` is never expired; otherwise the
cookie is expired when `expires * 1000` is positive and strictly before
`now` (milliseconds). -/
def isExpired (now : Int) (c : CookieParam) : Bool :=
  match c.expires with
  | none => false
  | some e =>
    if e = 0 then false
    else
      let expMs := e * 1000
      decide (expMs > 0) && decide (now > expMs)

/-- The per-cookie predicate of `filterAllowed` in src/lib/session.ts:
trim the domain, reject an empty domain, then test membership of the
domain (or the domain without its leading dot) in the allow-list. -/
def allowedDomain (c : CookieParam) : Bool :=
  let d := jsTrim c.domain
  if d = "" then false
  else COOKIE_ALLOWED_DOMAINS.contains d
    || COOKIE_ALLOWED_DOMAINS.contains (stripLeadingDot d)

/-- Translated from `filterAllowed` in src/lib/session.ts. -/
def filterAllowed (cookies : List CookieParam) : List CookieParam :=
  cookies.filter allowedDomain

/-- The deduplication key from `saveSession`: `name|domain|path || '/'`. -/
def cookieKey (c : CookieParam) : String :=
  c.name ++ "|" ++ c.domain ++ "|" ++
    (match c.path with
     | none => "/"
     | some p => if p = "" then "/" else p)

/-- One `dedup.set(key, c)` step of the JavaScript `Map`: an existing key is
overwritten in place (keeping its original insertion position); a new key is
appended. -/
def dedupInsert (acc : List CookieParam) (c : CookieParam) : List CookieParam :=
  if acc.any (fun x => cookieKey x = cookieKey c) then
    acc.map (fun x => if cookieKey x = cookieKey c then c else x)
  else
    acc ++ [c]

/-- The `Map`-based deduplication by `(name, domain, path)` in `saveSession`. -/
def dedupCookies (cs : List CookieParam) : List CookieParam :=
  cs.foldl dedupInsert []

/-- The pure cookie-processing core of `saveSession` in src/lib/session.ts:
keep cookies with a truthy name and value, restrict to the allow-list, drop
expired cookies, then deduplicate by `(name, domain, path)`. -/
def savedCookies (now : Int) (collected : List CookieParam) : List CookieParam :=
  dedupCookies
    (((collected.filter (fun c => c.name ≠ "" && c.value ≠ "")).filter
        allowedDomain).filter (fun c => !isExpired now c))

/-- The persisted `StoredCookies` record of src/lib/session.ts.  The
diagnostic fields `uaHash` and `domainSummary` are elided; `savedAt` and
`lastValidatedAt` are epoch milliseconds. -/
structure StoredCookies where
  version : Nat := 1
  savedAt : Int
  lastValidatedAt : Option Int := none
  cookies : List CookieParam
deriving DecidableEq, Repr

/-- The record `saveSession` writes at time `now` for snapshot `collected`. -/
def saveSessionRecord (now : Int) (collected : List CookieParam) : StoredCookies :=
  { version := 1, savedAt := now, lastValidatedAt := some now
    cookies := savedCookies now collected }

/-! ### Session files: atomic write and corruption recovery -/

/-- Content of a session file on disk:
`good r` parses as a record, `noCookiesArray` parses as JSON whose
`cookies` field is not an array, `bad` is non-empty text that
`JSON.parse` rejects, `blank` is the empty file. -/
inductive FileContent where
  | good (r : StoredCookies)
  | noCookiesArray
  | bad
  | blank
deriving DecidableEq, Repr

/-- The primary session file and its `.bak` sibling (`none` = absent). -/
structure SessionFs where
  primary : Option FileContent
  bak : Option FileContent
deriving DecidableEq, Repr

/-- Translated from `atomicWrite` in src/lib/session.ts: write a temp file,
copy the previous primary file to the `.bak` path when it exists, then
rename the temp file onto the primary path. -/
def atomicWrite (fs : SessionFs) (data : FileContent) : SessionFs :=
  { primary := some data
    bak := if fs.primary.isSome then fs.primary else fs.bak }

/-- The parse-and-recover stage of `loadSession` in src/lib/session.ts:
a missing file returns nothing; an empty file returns nothing *before the
backup is ever consulted*; an unparsable (non-empty) primary falls back to
the `.bak` sibling; a parsed record without a cookies array is rejected. -/
def loadParsedRecord (fs : SessionFs) : Option StoredCookies :=
  match fs.primary with
  | none => none
  | some FileContent.blank => none
  | some (FileContent.good r) => some r
  | some FileContent.noCookiesArray => none
  | some FileContent.bad =>
    match fs.bak with
    | some (FileContent.good r) => some r
    | _ => none

/-- The cookie set `loadSession` injects into the page: the stored cookies
restricted to the allow-list with expired cookies discarded. -/
def loadedCookies (now : Int) (fs : SessionFs) : List CookieParam :=
  match loadParsedRecord fs with
  | none => []
  | some r => (filterAllowed r.cookies).filter (fun c => !isExpired now c)

/-- How one `loadSession` call can end: it either returns a boolean to its
caller or never completes. -/
inductive LoadOutcome where
  | returns (authenticated : Bool)
  | hangs
deriving DecidableEq, Repr

/-- The outcome of `loadSession` in src/lib/session.ts: when no record can
be parsed or no valid cookie remains after filtering, it returns false;
otherwise it injects the cookies and validates (`validateOk` models the
outcome of `validateSession`).  On validation failure it returns false.
On validation success the source executes
`await refreshAndSave(page)`, and `refreshAndSave` awaits `saveSession`,
whose `acquireLock()` finds the non-reentrant in-process lock still held
by this very `loadSession` call; `release()` only runs in the blocked
`finally` blocks, so the call deadlocks and never returns - modelled as
`hangs`. -/
def loadSessionOutcome (now : Int) (fs : SessionFs) (validateOk : Bool) :
    LoadOutcome :=
  match loadParsedRecord fs with
  | none => LoadOutcome.returns false
  | some r =>
    let cookies := (filterAllowed r.cookies).filter (fun c => !isExpired now c)
    if cookies.isEmpty then LoadOutcome.returns false
    else if validateOk then LoadOutcome.hangs
    else LoadOutcome.returns false

/-! ### Rate-limited scheduler (src/lib/browser.ts) -/

/-- Translated from `enforceRateLimit` in src/lib/browser.ts: with module
state `last = lastRequestTime` and the current clock `now`, the job's
browser work begins after waiting out the remainder of `delay`
(`env.REQUEST_DELAY_MS`), i.e. at `last + delay` when less than `delay`
has elapsed, and immediately at `now` otherwise; `lastRequestTime` is then
set to that start instant. -/
def rateLimitedStart (delay last now : Int) : Int :=
  if now - last < delay then last + delay else now

/-- One scrape job handed to `limiter.schedule` via `analyzeLinkedInProfile`:
its arrival (enqueue) instant and the duration of its browser work. -/
structure Job where
  arrival : Int
  duration : Int
deriving DecidableEq, Repr

/-- The executed interval of one job's browser-touching work. -/
structure Exec where
  start : Int
  finish : Int
deriving DecidableEq, Repr

/-- Modelled from the spec: the Bottleneck `limiter` is configured in
src/lib/browser.ts with `maxConcurrent: 1` and FIFO queueing (Bottleneck
itself is an external dependency), so job `i` is admitted no earlier than
its arrival and no earlier than the completion of job `i-1`.  Each admitted
job's browser work then starts at the instant computed by
`rateLimitedStart` (translated from the source's `enforceRateLimit`, whose
`lastRequestTime` state is threaded through as `last`). -/
def scheduleJobs (delay : Int) : List Job → Int → Int → List Exec
  | [], _, _ => []
  | j :: rest, last, prevFinish =>
    let admitTime := max j.arrival prevFinish
    let start := rateLimitedStart delay last admitTime
    let finish := start + j.duration
    ⟨start, finish⟩ :: scheduleJobs delay rest start finish

/-- Run a whole job sequence from the initial module state
(`lastRequestTime = 0`, browser idle). -/
def runJobs (delay : Int) (jobs : List Job) : List Exec :=
  scheduleJobs delay jobs 0 0

/-! ### Browser page creation (src/lib/browser.ts, `newPage`) -/

/-- Observable actions of `newPage`: the n-th page-creation attempt, and a
forced relaunch (close the cached browser, null it, relaunch via
`getBrowser`). -/
inductive NewPageAction where
  | attempt (n : Nat)
  | relaunch
deriving DecidableEq, Repr

/-- Translated from `newPage` in src/lib/browser.ts: the body is one
`try`/`catch`; on any failure of the first attempt the cached browser is
closed and nulled (a forced relaunch) and the whole page set-up is retried
exactly once; the second attempt is not guarded, so its failure propagates
to the caller.  `attempt n` is the outcome of the n-th page-creation
attempt; the returned list is the sequence of actions performed. -/
def newPageRun (attempt : Nat → Except String String) :
    Except String String × List NewPageAction :=
  match attempt 0 with
  | Except.ok p => (Except.ok p, [NewPageAction.attempt 0])
  | Except.error _ =>
    (attempt 1,
     [NewPageAction.attempt 0, NewPageAction.relaunch, NewPageAction.attempt 1])

/-! ### DOM text extraction (src/services/linkedinScraper.ts) -/

/-- Split a character list into maximal whitespace-free words
(accumulator holds the current word reversed). -/
def wordsAux : List Char → List Char → List (List Char)
  | cur, [] => if cur.isEmpty then [] else [cur.reverse]
  | cur, c :: cs =>
    if c.isWhitespace then
      if cur.isEmpty then wordsAux [] cs else cur.reverse :: wordsAux [] cs
    else
      wordsAux (c :: cur) cs

/-- Join words with single spaces. -/
def joinSpace : List (List Char) → List Char
  | [] => []
  | [w] => w
  | w :: ws => w ++ ' ' :: joinSpace ws

/-- Translated from `clean` in src/services/linkedinScraper.ts:
`(t || '').replace(/\s+/g, ' ').trim()`, i.e. the whitespace-separated
words of `t` joined by single spaces. -/
def cleanText (t : String) : String :=
  String.mk (joinSpace (wordsAux [] t.data))

/-- Keep the first occurrence of each element, as `Array.from(new Set(xs))`
does in JavaScript. -/
def dedupFirst (l : List String) : List String :=
  go [] l
where
  go (seen : List String) : List String → List String
    | [] => []
    | x :: xs => if x ∈ seen then go seen xs else x :: go (x :: seen) xs

/-- Abstraction of a DOM element inside the page-side `evaluate` of
`extractExperience`: `nodes` maps a CSS selector to the raw text of the
first node `querySelector` would return for it (absent = no match), and
`spans` lists the raw texts of the element's `span` descendants in
document order. -/
structure DomElement where
  nodes : List (String × String) := []
  spans : List String := []
deriving DecidableEq, Repr

/-- Translated from `pick` in `extractExperience`: walk the ordered selector
list; for the first selector whose node exists and has non-empty cleaned
text, return that text; otherwise the explicit empty string. -/
def pick (el : DomElement) : List String → String
  | [] => ""
  | s :: rest =>
    match el.nodes.lookup s with
    | some txt =>
      let t := cleanText txt
      if t ≠ "" then t else pick el rest
    | none => pick el rest

/-- Translated from `heuristicLines` in `extractExperience`: the cleaned,
non-empty, first-occurrence-deduplicated span texts, truncated to 8. -/
def heuristicLines (el : DomElement) : List String :=
  (dedupFirst ((el.spans.map cleanText).filter (fun w => w ≠ ""))).take 8

/-- The ordered position selectors of `extractExperience`. -/
def positionSelectors : List String :=
  [".mr1.hoverable-link-text.t-bold span",
   "span[aria-hidden=\"true\"]",
   ".t-bold",
   "a[aria-hidden=\"true\"] span"]

/-- The ordered company selectors of `extractExperience`. -/
def companySelectors : List String :=
  [".t-14.t-normal",
   ".pv-entity__secondary-title",
   "a[href*=\"/company/\"] span[aria-hidden=\"true\"]"]

/-- The duration selector list of `extractExperience`. -/
def durationSelectors : List String :=
  [".t-14.t-normal.t-black--light"]

/-- The description selectors of `extractExperience` (picked from the
whole `li`). -/
def descriptionSelectors : List String :=
  [".inline-show-more-text",
   ".pv-shared-text-with-see-more",
   "[data-test-description]"]

/-- Is `pre` a prefix of the second list? -/
def isPrefixChars : List Char → List Char → Bool
  | [], _ => true
  | _ :: _, [] => false
  | a :: as, b :: bs => a == b && isPrefixChars as bs

/-- Does the second list contain `sub` as a contiguous sublist? -/
def containsChars (sub : List Char) : List Char → Bool
  | [] => sub.isEmpty
  | c :: cs => isPrefixChars sub (c :: cs) || containsChars sub cs

/-- JavaScript-style substring containment. -/
def containsStr (s sub : String) : Bool :=
  containsChars sub.data s.data

/-- Lower-case every character, as `String.prototype.toLowerCase` does for
ASCII. -/
def lowerStr (s : String) : String :=
  String.mk (s.data.map Char.toLower)

/-- The regex test `/·|month|year|present|20\d{2}/i` used by the duration
heuristic: the text contains `·`, or (case-insensitively) `month`, `year`
or `present`, or `20` followed by two digits. -/
def isDurationLike (t : String) : Bool :=
  let low := lowerStr t
  let cs := t.data
  containsStr low "·" || containsStr low "month" || containsStr low "year" ||
  containsStr low "present" ||
  (List.range cs.length).any (fun i =>
    cs.getD i ' ' == '2' && cs.getD (i + 1) ' ' == '0' &&
    (cs.getD (i + 2) 'x').isDigit && (cs.getD (i + 3) 'x').isDigit)

/-- Translated from the `position` expression of `extractExperience`:
the selector chain first, then the first heuristic line, then `''`. -/
def extractPosition (main : DomElement) : String :=
  let p := pick main positionSelectors
  if p ≠ "" then p else (heuristicLines main).getD 0 ""

/-- Translated from the `company` expression of `extractExperience`:
the selector chain first, then the second heuristic line, then `''`. -/
def extractCompany (main : DomElement) : String :=
  let c := pick main companySelectors
  if c ≠ "" then c else (heuristicLines main).getD 1 ""

/-- Translated from the `durationCandidate` expression of
`extractExperience`: the selector chain first, then the first
date-shaped heuristic line, then `''`. -/
def extractDuration (main : DomElement) : String :=
  let d := pick main durationSelectors
  if d ≠ "" then d
  else ((heuristicLines main).find? isDurationLike).getD ""

/-- One `li.pvs-list__paged-list-item`: `main` is the resolved main
container (the flex-column div, `div.pvs-entity`, or the `li` itself) and
`li` is the list item, from which the description is picked. -/
structure ExpListItem where
  main : DomElement
  li : DomElement := {}
deriving DecidableEq, Repr

/-- One work-history record as produced by the live `extractExperience`;
it carries no `startDate`/`endDate` properties, which is modelled by the
optional fields being `none`. -/
structure RawWorkItem where
  position : String
  company : String
  duration : String
  description : String
  startDate : Option String := none
  endDate : Option String := none
deriving DecidableEq, Repr

/-- Per-item field extraction of `extractExperience` in
src/services/linkedinScraper.ts. -/
def extractItem (it : ExpListItem) : RawWorkItem :=
  { position := extractPosition it.main
    company := extractCompany it.main
    duration := extractDuration it.main
    description := pick it.li descriptionSelectors }

/-- The full page-side map/filter of `extractExperience`: extract every
list item, then keep items with a non-empty position or company. -/
def extractExperienceItems (items : List ExpListItem) : List RawWorkItem :=
  (items.map extractItem).filter (fun x => x.position ≠ "" || x.company ≠ "")

/-! ### Scrape job orchestration (src/services/linkedinScraper.ts) -/

/-- Basic profile fields returned by `extractBasics`. -/
structure Basics where
  name : String
  title : String
  location : String
  summary : String
deriving DecidableEq, Repr

/-- The ways `scrapeLinkedInProfile` can reject, read off the `throw`
sites and the *unguarded* awaits reachable from it in
src/services/linkedinScraper.ts, src/lib/pageReady.ts and
src/lib/browser.ts.  `navigationFailed` covers the unguarded
`page.evaluate` calls inside `warmPageForScrape`, `expandShowMore`,
`autoScroll` and `killCookieBanners` (e.g. pageReady.ts lines 31, 95,
102), and the typing/submit/scroll work of the fresh-login path, whose
rejections propagate because nothing catches them. -/
inductive ScrapeErr where
  | pageCreationFailed (msg : String)
  | missingCredentials
  | navigationFailed (msg : String)
  | loginFormNotFound
  | basicsEvalFailed (msg : String)
deriving DecidableEq, Repr

/-- How one scrape job can end: the returned promise resolves, rejects, or
never settles (the job hangs, e.g. inside the `loadSession` deadlock). -/
inductive ScrapeOutcome (α : Type) where
  | hangs
  | err (e : ScrapeErr)
  | ok (v : α)
deriving DecidableEq, Repr

/-- Environment and i/o outcomes of one scrape job.  Each field captures
the result of one fallible step of the pipeline, in source order:
`newPageResult` is the outcome of `newPage()` (after its internal retry);
`clock`, `sessionFile` and `sessionValidates` feed `loadSessionOutcome`
(what `loadSession` does with the record on disk - a thrown `setCookie` is
caught by `authenticateLinkedIn` and lands on the fresh-login path like a
false return, and the theorems below only exercise worlds without a
stored validating session); `sessionCheckUrlAuthed` is the post-load
`/feed/` URL test; `preLoginNav` is the unguarded `warmPageForScrape` work
of the login-URL loop; `loginInputsFound` says the robust selector sets
located both credential inputs; `postLoginNav` is the unguarded
typing/submit/auto-scroll work after the inputs are found;
`warmDetails`, `warmMainRetry` and `warmMainProfile` are the three
unguarded navigation warm-ups of `scrapeLinkedInProfile` (details page;
main-page fallback plus `expandShowMore`; final main-page visit);
`detailItems` / `mainItems` are the `evaluate` outcomes of
`extractExperience` (rejections caught by `.catch(() => [])`); `basics`
is the `extractBasics` evaluation, which the source does *not* guard. -/
structure ScrapeWorld where
  newPageResult : Except String Unit
  clock : Int
  sessionFile : SessionFs
  sessionValidates : Bool
  sessionCheckUrlAuthed : Bool
  hasCredentials : Bool
  preLoginNav : Except String Unit
  loginInputsFound : Bool
  postLoginNav : Except String Unit
  warmDetails : Except String Unit
  warmMainRetry : Except String Unit
  warmMainProfile : Except String Unit
  detailItems : Except String (List ExpListItem)
  mainItems : Except String (List ExpListItem)
  basics : Except String Basics
deriving Repr

/-- The fresh-login path of `authenticateLinkedIn`: the credentials check
(`throw` when missing) comes first, then the unguarded login-page
warm-ups, then the robust input search (`throw` when nothing is found),
then the unguarded typing/submit/scroll work; after submitting, the
session is saved and the page returned even when a checkpoint is
showing. -/
def freshLogin (w : ScrapeWorld) : ScrapeOutcome Unit :=
  if !w.hasCredentials then ScrapeOutcome.err ScrapeErr.missingCredentials
  else
    match w.preLoginNav with
    | Except.error m => ScrapeOutcome.err (ScrapeErr.navigationFailed m)
    | Except.ok _ =>
      if !w.loginInputsFound then ScrapeOutcome.err ScrapeErr.loginFormNotFound
      else
        match w.postLoginNav with
        | Except.error m => ScrapeOutcome.err (ScrapeErr.navigationFailed m)
        | Except.ok _ => ScrapeOutcome.ok ()

/-- Translated from `authenticateLinkedIn` in
src/services/linkedinScraper.ts: create a page; call `loadSession` - if
that call hangs (stored session with valid cookies and passing
validation, see `loadSessionOutcome`) the whole job hangs; if it returns
true and the `/feed/` check stays off login/checkpoint/challenge the page
is authenticated (a branch the session store can in fact never produce,
see `loadSession_never_returns_true`); otherwise fall through to the
fresh-login path. -/
def authenticateLinkedIn (w : ScrapeWorld) : ScrapeOutcome Unit :=
  match w.newPageResult with
  | Except.error m => ScrapeOutcome.err (ScrapeErr.pageCreationFailed m)
  | Except.ok _ =>
    match loadSessionOutcome w.clock w.sessionFile w.sessionValidates with
    | LoadOutcome.hangs => ScrapeOutcome.hangs
    | LoadOutcome.returns loaded =>
      if loaded && w.sessionCheckUrlAuthed then ScrapeOutcome.ok ()
      else freshLogin w

/-- The `.catch(() => [])` wrapped around each `extractExperience` call. -/
def caughtItems (r : Except String (List ExpListItem)) : List ExpListItem :=
  match r with
  | Except.error _ => []
  | Except.ok l => l

/-- The raw object returned by `scrapeLinkedInProfile` on success. -/
structure RawProfile where
  name : String
  title : String
  location : String
  summary : String
  workHistory : List RawWorkItem
  education : List String
  skills : List String
  connections : Int
deriving DecidableEq, Repr

/-- The tail of `scrapeLinkedInProfile` after the work history is settled:
the unguarded final main-page warm-up, then the unguarded `extractBasics`
evaluation, then the assembled raw result with empty education/skills and
zero connections. -/
def scrapeFinish (w : ScrapeWorld) (wh : List RawWorkItem) :
    ScrapeOutcome RawProfile :=
  match w.warmMainProfile with
  | Except.error m => ScrapeOutcome.err (ScrapeErr.navigationFailed m)
  | Except.ok _ =>
    match w.basics with
    | Except.error m => ScrapeOutcome.err (ScrapeErr.basicsEvalFailed m)
    | Except.ok b =>
      ScrapeOutcome.ok
        { name := b.name, title := b.title, location := b.location
          summary := b.summary, workHistory := wh
          education := [], skills := [], connections := 0 }

/-- Translated from `scrapeLinkedInProfile` in
src/services/linkedinScraper.ts: after `enforceRateLimit`, authenticate
(the body has a `finally` that closes the page but no `catch`, so
hangs and errors propagate); warm the details page (unguarded); extract
experience with `.catch(() => [])`; when that yields zero entries, warm
the main page and `expandShowMore` (both unguarded) and re-extract; then
finish via the final warm-up and basics. -/
def scrapeLinkedInProfile (w : ScrapeWorld) : ScrapeOutcome RawProfile :=
  match authenticateLinkedIn w with
  | ScrapeOutcome.hangs => ScrapeOutcome.hangs
  | ScrapeOutcome.err e => ScrapeOutcome.err e
  | ScrapeOutcome.ok _ =>
    match w.warmDetails with
    | Except.error m => ScrapeOutcome.err (ScrapeErr.navigationFailed m)
    | Except.ok _ =>
      let wh0 := extractExperienceItems (caughtItems w.detailItems)
      if wh0.isEmpty then
        match w.warmMainRetry with
        | Except.error m => ScrapeOutcome.err (ScrapeErr.navigationFailed m)
        | Except.ok _ =>
          scrapeFinish w (extractExperienceItems (caughtItems w.mainItems))
      else scrapeFinish w wh0

/-- Translated from `analyzeLinkedInProfile` in
src/services/linkedinScraper.ts: `limiter.schedule` resolves with the
job's value, rejects with the job's error, and never settles when the job
never settles, so the scheduled entry point has exactly the job's
outcome. -/
def analyzeLinkedInProfile (w : ScrapeWorld) : ScrapeOutcome RawProfile :=
  scrapeLinkedInProfile w

/-! ### Result normalization (`parseLinkedInProfile`) -/

/-- The `WorkExperience` shape of src/types.ts, as filled in by
`parseLinkedInProfile`. -/
structure WorkExperience where
  company : String
  position : String
  duration : String
  startDate : String
  endDate : String
  description : String
deriving DecidableEq, Repr

/-- JavaScript `x || fallback` on an optional string field: `undefined`
and the empty string both fall through. -/
def orDefault (x : Option String) (fallback : String) : String :=
  match x with
  | none => fallback
  | some s => if s = "" then fallback else s

/-- The `normalizeWork` mapper inside `parseLinkedInProfile` (on the item
shape the live `extractExperience` produces, whose `startDate`/`endDate`
properties are absent). -/
def normalizeWorkItem (x : RawWorkItem) : WorkExperience :=
  { company := if x.company = "" then "Unknown" else x.company
    position := if x.position = "" then "Unknown" else x.position
    duration := x.duration
    startDate := orDefault x.startDate ""
    endDate := orDefault x.endDate ""
    description := x.description }

/-- The `LinkedInProfile` shape of src/types.ts. -/
structure LinkedInProfile where
  name : String
  title : String
  location : String
  summary : String
  workHistory : List WorkExperience
  education : List String
  skills : List String
  connections : Int
  profileStrength : Int
deriving DecidableEq, Repr

/-- Translated from `parseLinkedInProfile` in
src/services/linkedinScraper.ts. -/
def parseLinkedInProfile (raw : RawProfile) : LinkedInProfile :=
  { name := if raw.name = "" then "Unknown" else raw.name
    title := if raw.title = "" then "No title" else raw.title
    location := if raw.location = "" then "Unknown" else raw.location
    summary := if raw.summary = "" then "No summary available" else raw.summary
    workHistory := raw.workHistory.map normalizeWorkItem
    education := raw.education
    skills := raw.skills
    connections := raw.connections
    profileStrength := min (raw.workHistory.length * 20 + 20) 100 }

/-! ### Session store mutex usage (src/lib/session.ts)

The three public operations are modelled by the sequence of mutex and
session-file operations they issue.  `acquire`/`release` are
`acquireLock()`/`release()` on the single in-process lock; `fread`/`fwrite`
are content reads/writes of the session file or its `.bak`/temp siblings
(pure existence probes and page/cookie traffic are not file accesses and
are omitted). -/

inductive FsAction where
  | acquire
  | release
  | fread
  | fwrite
deriving DecidableEq, Repr

/-- File accesses of `atomicWrite`: write the temp file; when the primary
file exists, copy it to `.bak` (one read, one write); rename the temp file
onto the primary (one write of the primary path). -/
def atomicWriteTrace (primaryExists : Bool) : List FsAction :=
  [FsAction.fwrite] ++
  (if primaryExists then [FsAction.fread, FsAction.fwrite] else []) ++
  [FsAction.fwrite]

/-- Trace of `saveSession`: `acquireLock()`, snapshot page cookies (not a
file access), `atomicWrite`, then `release()` in the `finally`. -/
def saveSessionTrace (primaryExists : Bool) : List FsAction :=
  [FsAction.acquire] ++ atomicWriteTrace primaryExists ++ [FsAction.release]

/-- Trace of `ensureFreshSession`: it reads the session file *without any
`acquireLock()` call*; when the record is stale and validation succeeds it
runs `refreshAndSave`, whose nested `saveSession` is the only locked
part.  (`loadSession` is not given a trace here: its validation-success
path blocks forever at the nested `acquireLock`, see
`loadSessionOutcome`.) -/
def ensureFreshSessionTrace (staleAndValid : Bool) : List FsAction :=
  [FsAction.fread] ++ (if staleAndValid then saveSessionTrace true else [])

/-- One concurrently running session-store operation: its remaining
actions, and whether it is currently parked in `await lockPromise`. -/
structure OpState where
  rest : List FsAction
  blocked : Bool
deriving DecidableEq, Repr

/-- The shared state of the promise lock of src/lib/session.ts plus the
running operations.  `lockActive` is `lockPromise !== null` (which in
this code coincides with `releaseLock !== null`). -/
structure MutexState where
  lockActive : Bool
  ops : List OpState
deriving DecidableEq, Repr

/-- Start the given operation traces concurrently with the lock free. -/
def initMutexState (trs : List (List FsAction)) : MutexState :=
  { lockActive := false
    ops := trs.map (fun t => { rest := t, blocked := false }) }

/-- One event-loop step of operation `i`, translated from `acquireLock`
and `release` in src/lib/session.ts (lines 42-59):

* `acquire` with the lock free creates the promise and proceeds as
  holder; `acquire` with the lock taken is `await lockPromise` - the task
  parks, and once resolved it simply proceeds, *without* re-checking or
  re-creating the promise, so it holds nothing;
* `release` with the lock taken resolves the promise, nulls it and wakes
  *every* parked task (wake-all); `release` with the lock free is a no-op
  (`releaseLock` is null), and a release never checks who acquired;
* file reads/writes just execute.

Returns `none` for an unschedulable step (operation finished or parked);
otherwise the next state and the performed events. -/
def stepOp (s : MutexState) (i : Nat) :
    Option (MutexState × List (Nat × FsAction)) :=
  match s.ops.get? i with
  | none => none
  | some op =>
    if op.blocked then none
    else
      match op.rest with
      | [] => none
      | a :: rest =>
        match a with
        | FsAction.acquire =>
          if s.lockActive then
            some ({ s with ops := s.ops.set i { rest := rest, blocked := true } },
                  [])
          else
            some ({ lockActive := true
                    ops := s.ops.set i { rest := rest, blocked := false } },
                  [(i, FsAction.acquire)])
        | FsAction.release =>
          if s.lockActive then
            some ({ lockActive := false
                    ops := (s.ops.set i { rest := rest, blocked := false }).map
                      (fun o => { o with blocked := false }) },
                  [(i, FsAction.release)])
          else
            some ({ s with ops := s.ops.set i { rest := rest, blocked := false } },
                  [(i, FsAction.release)])
        | FsAction.fread =>
          some ({ s with ops := s.ops.set i { rest := rest, blocked := false } },
                [(i, FsAction.fread)])
        | FsAction.fwrite =>
          some ({ s with ops := s.ops.set i { rest := rest, blocked := false } },
                [(i, FsAction.fwrite)])

/-- Run a schedule (a list of operation indices, one per event-loop step)
and collect the performed events; `none` when the schedule is invalid. -/
def runSchedule : MutexState → List Nat → Option (List (Nat × FsAction))
  | _, [] => some []
  | s, i :: sched =>
    match stepOp s i with
    | none => none
    | some (s2, evs) =>
      match runSchedule s2 sched with
      | none => none
      | some rest => some (evs ++ rest)

/-! ### Helper lemmas about the session store -/

theorem mem_of_dedupInsert {x c : CookieParam} {acc : List CookieParam}
    (h : x ∈ dedupInsert acc c) : x ∈ acc ∨ x = c := by
  unfold dedupInsert at h
  split at h
  · rcases List.mem_map.mp h with ⟨y, hy, hxy⟩
    by_cases hk : cookieKey y = cookieKey c
    · right
      simp only [hk, if_pos] at hxy
      exact hxy.symm
    · left
      simp only [hk, if_neg, if_false] at hxy
      exact hxy ▸ hy
  · rcases List.mem_append.mp h with h1 | h2
    · exact Or.inl h1
    · exact Or.inr (List.mem_singleton.mp h2)

theorem mem_of_foldl_dedupInsert :
    ∀ (l acc : List CookieParam) (x : CookieParam),
      x ∈ l.foldl dedupInsert acc → x ∈ acc ∨ x ∈ l := by
  intro l
  induction l with
  | nil => exact fun acc x h => Or.inl h
  | cons c cs ih =>
    intro acc x h
    rcases ih (dedupInsert acc c) x h with h1 | h2
    · rcases mem_of_dedupInsert h1 with h3 | h4
      · exact Or.inl h3
      · exact Or.inr (by simp [h4])
    · exact Or.inr (List.mem_cons_of_mem _ h2)

theorem mem_of_mem_savedCookies {now : Int} {l : List CookieParam}
    {x : CookieParam} (h : x ∈ savedCookies now l) :
    allowedDomain x = true ∧ isExpired now x = false := by
  unfold savedCookies dedupCookies at h
  rcases mem_of_foldl_dedupInsert _ _ _ h with h1 | h2
  · simp at h1
  · have h3 := List.mem_filter.mp h2
    have h4 := List.mem_filter.mp h3.1
    refine ⟨h4.2, ?_⟩
    have := h3.2
    simpa using this

theorem filterAllowed_savedCookies (now : Int) (l : List CookieParam) :
    filterAllowed (savedCookies now l) = savedCookies now l := by
  unfold filterAllowed
  exact List.filter_eq_self.mpr fun x hx => (mem_of_mem_savedCookies hx).1

/-- `loadSession` cannot report an authenticated session to its caller: on
every input it either returns false or - when validation would succeed -
deadlocks at the nested `acquireLock` and never returns. -/
theorem loadSession_never_returns_true (now : Int) (fs : SessionFs) (v : Bool) :
    loadSessionOutcome now fs v ≠ LoadOutcome.returns true := by
  unfold loadSessionOutcome
  rcases loadParsedRecord fs with _ | r
  · simp
  · dsimp only
    split
    · simp
    · split <;> simp

/-! ### Concrete cookies used in witnesses and counterexamples -/

/-- The exact cookie of the spec's round-trip scenario. -/
def exampleComCookie : CookieParam :=
  { name := "auth", value := "abc", domain := ".example.com", expires := some 0 }

/-- The same cookie on an allow-listed domain. -/
def linkedInAuthCookie : CookieParam :=
  { name := "auth", value := "abc", domain := ".linkedin.com", expires := some 0 }

/-- A record holding one never-expiring allow-listed cookie. -/
def liBackupRecord : StoredCookies := saveSessionRecord 0 [linkedInAuthCookie]

/-- An allow-listed cookie that expired one second after the epoch. -/
def expiredCookie : CookieParam :=
  { name := "li_at", value := "tok", domain := ".linkedin.com", expires := some 1 }

/-- A record containing only the expired cookie. -/
def expiredRecord : StoredCookies := { savedAt := 0, cookies := [expiredCookie] }

/-! ### C3 - session round-trip -/

/-- C3 counterexample: the claim's cookie
`(name "auth", domain ".example.com", value "abc", expires 0)` is dropped
by the domain allow-list during `saveSession`, so saving and re-loading
does not yield an identical cookie set: the resulting set is empty even
though the cookie never expires. -/
theorem session_roundtrip_drops_example_cookie :
    savedCookies 0 [exampleComCookie] = []
    ∧ loadedCookies 0
        (atomicWrite ⟨none, none⟩
          (FileContent.good (saveSessionRecord 0 [exampleComCookie]))) = []
    ∧ ([] : List CookieParam) ≠ [exampleComCookie] := by
  decide

/-- C3 (amended): saving a session and loading it into a fresh page yields
exactly the persisted cookie set (same name, domain, path, value) minus
cookies expired at load time, where the persisted set is the snapshot
restricted to the LinkedIn domain allow-list and de-duplicated by
(name, domain, path); cookies on foreign domains such as `.example.com`
are excluded by the allow-list rather than round-tripped. -/
theorem session_roundtrip_allowlisted (saveT loadT : Int)
    (collected : List CookieParam) :
    loadedCookies loadT
        (atomicWrite ⟨none, none⟩
          (FileContent.good (saveSessionRecord saveT collected)))
      = (savedCookies saveT collected).filter (fun c => !isExpired loadT c) := by
  simp [loadedCookies, loadParsedRecord, atomicWrite, saveSessionRecord,
        filterAllowed_savedCookies]

/-! ### C4 - corruption recovery -/

/-- C4 counterexample, refuting both halves of the claimed success.  An
*empty* primary session file is not valid JSON, yet `loadSession` returns
false without recovering anything: with a perfectly valid `.bak` record on
disk no cookie is injected (while the backup record alone would inject its
cookie).  And even for a *non-empty* unparsable primary, where the backup
record genuinely is recovered, a validation-success load does not succeed:
it hangs forever in the `refreshAndSave` deadlock. -/
theorem load_empty_primary_ignores_backup :
    loadSessionOutcome 0
        ⟨some FileContent.blank, some (FileContent.good liBackupRecord)⟩ true
      = LoadOutcome.returns false
    ∧ loadedCookies 0
        ⟨some FileContent.blank, some (FileContent.good liBackupRecord)⟩ = []
    ∧ loadedCookies 0
        ⟨some (FileContent.good liBackupRecord), none⟩ = [linkedInAuthCookie]
    ∧ loadSessionOutcome 0
        ⟨some FileContent.bad, some (FileContent.good liBackupRecord)⟩ true
      = LoadOutcome.hangs := by
  decide

/-- C4 (amended): if the primary session file is *non-empty* but not valid
JSON and a parsable `.bak` sibling exists, `loadSession` recovers the
record from the backup and proceeds exactly as if the primary file held
the backup's record - same injected cookie set and same outcome; and the
save path copies the previous primary file to the `.bak` path before every
rename whenever a previous file exists.  The claim's `succeeds` holds on
no path: an empty primary file is rejected before the backup is consulted,
and a load whose validation passes never returns (see
`loadSessionOutcome`). -/
theorem load_recovers_from_backup (r : StoredCookies) (bk : Option FileContent)
    (now : Int) (v : Bool) (fs : SessionFs) (data : FileContent) :
    loadSessionOutcome now ⟨some FileContent.bad, some (FileContent.good r)⟩ v
      = loadSessionOutcome now ⟨some (FileContent.good r), bk⟩ v
    ∧ loadedCookies now ⟨some FileContent.bad, some (FileContent.good r)⟩
      = loadedCookies now ⟨some (FileContent.good r), bk⟩
    ∧ (atomicWrite fs data).primary = some data
    ∧ (atomicWrite fs data).bak
      = (if fs.primary.isSome then fs.primary else fs.bak) := by
  refine ⟨?_, ?_, rfl, rfl⟩
  · simp [loadSessionOutcome, loadParsedRecord]
  · simp [loadedCookies, loadParsedRecord]

/-! ### C5 - expiry filtering -/

/-- C5: `loadSession` excludes every stored cookie whose expiry is in the
past (every expired cookie is absent from the injected set), and a record
whose allow-listed cookies are all expired makes `loadSession` return
false: on that path it exits before cookie injection and validation (so no
exception and no deadlock is reachable), and the model returns
`LoadOutcome.returns false` for every validation outcome. -/
theorem load_excludes_expired_cookies (now : Int) (fs : SessionFs)
    (r : StoredCookies) (bk : Option FileContent) (v : Bool) (c : CookieParam)
    (hc : isExpired now c = true)
    (hall : ∀ x ∈ filterAllowed r.cookies, isExpired now x = true) :
    c ∉ loadedCookies now fs
    ∧ loadSessionOutcome now ⟨some (FileContent.good r), bk⟩ v
      = LoadOutcome.returns false := by
  constructor
  · intro hmem
    unfold loadedCookies at hmem
    rcases hrec : loadParsedRecord fs with _ | r2
    · rw [hrec] at hmem
      simp at hmem
    · rw [hrec] at hmem
      have h2 := (List.mem_filter.mp hmem).2
      rw [hc] at h2
      simp at h2
  · have hnil : (filterAllowed r.cookies).filter (fun x => !isExpired now x) = [] := by
      refine List.filter_eq_nil_iff.mpr fun a ha => ?_
      rw [hall a ha]
      simp
    simp [loadSessionOutcome, loadParsedRecord, hnil]

/-- C5 witness: a concrete record holding only a cookie that expired at
epoch second 1, loaded at epoch millisecond 2000000. -/
theorem load_excludes_expired_cookies_witness :
    isExpired 2000000 expiredCookie = true
    ∧ (∀ x ∈ filterAllowed expiredRecord.cookies, isExpired 2000000 x = true)
    ∧ (expiredCookie ∉
         loadedCookies 2000000 ⟨some (FileContent.good expiredRecord), none⟩
       ∧ loadSessionOutcome 2000000
           ⟨some (FileContent.good expiredRecord), none⟩ true
         = LoadOutcome.returns false) :=
  ⟨by decide, by decide,
   load_excludes_expired_cookies 2000000
     ⟨some (FileContent.good expiredRecord), none⟩ expiredRecord none true
     expiredCookie (by decide) (by decide)⟩

/-! ### C10 - expires 0 means never-expiring -/

/-- C10: a cookie whose `expires` is `undefined` or exactly 0 is reported
non-expired by `isExpired` at every instant, so the expiry filters in
`loadSession` and `saveSession` retain such cookies regardless of the
clock: `loadSession` keeps them whenever they are stored and allow-listed,
and the save path's expiry filter never removes them. -/
theorem zero_expiry_cookies_never_expire (now : Int) (c : CookieParam)
    (h : c.expires = none ∨ c.expires = some 0) :
    isExpired now c = false
    ∧ (∀ (r : StoredCookies) (bk : Option FileContent),
        c ∈ r.cookies → allowedDomain c = true →
        c ∈ loadedCookies now ⟨some (FileContent.good r), bk⟩)
    ∧ (∀ l : List CookieParam, c ∈ l →
        c ∈ l.filter (fun x => !isExpired now x)) := by
  have hexp : isExpired now c = false := by
    rcases h with h | h <;> simp [isExpired, h]
  refine ⟨hexp, ?_, ?_⟩
  · intro r bk hc hall
    simp only [loadedCookies, loadParsedRecord, filterAllowed]
    exact List.mem_filter.mpr ⟨List.mem_filter.mpr ⟨hc, hall⟩, by simp [hexp]⟩
  · intro l hl
    exact List.mem_filter.mpr ⟨hl, by simp [hexp]⟩

/-- C10 witness: the never-expiring LinkedIn auth cookie is retained even
at epoch millisecond 32503680000000 (year 3000). -/
theorem zero_expiry_cookies_never_expire_witness :
    isExpired 32503680000000 linkedInAuthCookie = false
    ∧ linkedInAuthCookie ∈
        loadedCookies 32503680000000 ⟨some (FileContent.good liBackupRecord), none⟩ :=
  ⟨(zero_expiry_cookies_never_expire 32503680000000 linkedInAuthCookie
      (Or.inr rfl)).1,
   (zero_expiry_cookies_never_expire 32503680000000 linkedInAuthCookie
      (Or.inr rfl)).2.1 liBackupRecord none (by decide) (by decide)⟩

/-! ### C1 - scheduler pacing and exclusivity -/

theorem rateLimitedStart_ge_now (delay last now : Int) :
    now ≤ rateLimitedStart delay last now := by
  unfold rateLimitedStart
  split <;> omega

theorem rateLimitedStart_gap (delay last now : Int) :
    last + delay ≤ rateLimitedStart delay last now := by
  unfold rateLimitedStart
  split <;> omega

/-- Invariant of the single-concurrency pacing loop: every produced
execution list is a chain with inter-start gap at least `delay` and no
overlap, and its first entry starts no earlier than `last + delay` and no
earlier than `prevFinish`. -/
theorem scheduleJobs_chain (delay : Int) :
    ∀ (jobs : List Job) (last prevFinish : Int),
      List.Chain' (fun a b => a.finish ≤ b.start ∧ a.start + delay ≤ b.start)
        (scheduleJobs delay jobs last prevFinish)
      ∧ (∀ e ∈ (scheduleJobs delay jobs last prevFinish).head?,
          last + delay ≤ e.start ∧ prevFinish ≤ e.start) := by
  intro jobs
  induction jobs with
  | nil => intro last prevFinish; simp [scheduleJobs]
  | cons j rest ih =>
    intro last prevFinish
    have hstart1 : last + delay ≤
        rateLimitedStart delay last (max j.arrival prevFinish) :=
      rateLimitedStart_gap ..
    have hstart2 : prevFinish ≤
        rateLimitedStart delay last (max j.arrival prevFinish) :=
      le_trans (le_max_right _ _) (rateLimitedStart_ge_now ..)
    have hrec := ih (rateLimitedStart delay last (max j.arrival prevFinish))
      (rateLimitedStart delay last (max j.arrival prevFinish) + j.duration)
    constructor
    · rw [scheduleJobs]
      refine List.chain'_cons'.mpr ⟨?_, hrec.1⟩
      intro e he
      have := hrec.2 e he
      exact ⟨this.2, this.1⟩
    · intro e he
      rw [scheduleJobs] at he
      simp only [List.head?_cons, Option.mem_def, Option.some.injEq] at he
      subst he
      exact ⟨hstart1, hstart2⟩

/-- Every executed interval is well-formed when job durations are
non-negative. -/
theorem scheduleJobs_wf (delay : Int) :
    ∀ (jobs : List Job) (last prevFinish : Int),
      (∀ j ∈ jobs, 0 ≤ j.duration) →
      ∀ e ∈ scheduleJobs delay jobs last prevFinish, e.start ≤ e.finish := by
  intro jobs
  induction jobs with
  | nil => intro last prevFinish _ e he; simp [scheduleJobs] at he
  | cons j rest ih =>
    intro last prevFinish hdur e he
    rw [scheduleJobs] at he
    rcases List.mem_cons.mp he with h1 | h2
    · subst h1
      have : 0 ≤ j.duration := hdur j (by simp)
      simp only []
      omega
    · exact ih _ _ (fun x hx => hdur x (List.mem_cons_of_mem _ hx)) e h2

/-- Along a chain of non-overlapping well-formed intervals, a bound on the
first start propagates to every start. -/
theorem chain_all_ge (x : Int) :
    ∀ (l : List Exec),
      List.Chain' (fun a b => a.finish ≤ b.start) l →
      (∀ e ∈ l, e.start ≤ e.finish) →
      (∀ h ∈ l.head?, x ≤ h.start) →
      ∀ b ∈ l, x ≤ b.start := by
  intro l
  induction l with
  | nil => intro _ _ _ b hb; simp at hb
  | cons a rest ih =>
    intro hchain hwf hhead b hb
    have hxa : x ≤ a.start := hhead a (by simp)
    rcases List.mem_cons.mp hb with h1 | h2
    · exact h1 ▸ hxa
    · have hc := List.chain'_cons'.mp hchain
      refine ih hc.2 (fun e he => hwf e (List.mem_cons_of_mem _ he)) ?_ b h2
      intro h hh
      have haf : a.finish ≤ h.start := hc.1 h hh
      have haw : a.start ≤ a.finish := hwf a (by simp)
      omega

/-- A chain of non-overlapping well-formed intervals is pairwise
non-overlapping. -/
theorem chain_pairwise_disjoint :
    ∀ (l : List Exec),
      List.Chain' (fun a b => a.finish ≤ b.start) l →
      (∀ e ∈ l, e.start ≤ e.finish) →
      List.Pairwise (fun a b => a.finish ≤ b.start) l := by
  intro l
  induction l with
  | nil => intro _ _; simp
  | cons a rest ih =>
    intro hchain hwf
    have hc := List.chain'_cons'.mp hchain
    refine List.pairwise_cons.mpr ⟨?_, ih hc.2
      (fun e he => hwf e (List.mem_cons_of_mem _ he))⟩
    intro b hb
    exact chain_all_ge a.finish rest hc.2
      (fun e he => hwf e (List.mem_cons_of_mem _ he)) hc.1 b hb

/-- C1: under the scheduler (Bottleneck `limiter` with `maxConcurrent: 1`
plus the source's `enforceRateLimit` with minimum interval `delay`), every
consecutively executed job starts at least `delay` after the previous
job's start, and - given non-negative work durations - the
browser-touching work intervals of any two jobs never overlap, so at most
one job's browser work executes at any time. -/
theorem scheduler_pacing_and_exclusivity (delay : Int) (jobs : List Job)
    (hdur : ∀ j ∈ jobs, 0 ≤ j.duration) :
    List.Chain' (fun a b => a.finish ≤ b.start ∧ a.start + delay ≤ b.start)
      (runJobs delay jobs)
    ∧ List.Pairwise (fun a b => a.finish ≤ b.start) (runJobs delay jobs) := by
  have hchain := (scheduleJobs_chain delay jobs 0 0).1
  refine ⟨hchain, ?_⟩
  have hwf := scheduleJobs_wf delay jobs 0 0 hdur
  exact chain_pairwise_disjoint _ (List.Chain'.imp (fun a b hab => hab.1) hchain) hwf

/-- C1 witness: three jobs arriving together with `delay = 1000`; the
computed starts are 1000, 2000 and 4500 (the long second job pushes the
third past the pacing bound), pairwise disjoint. -/
theorem scheduler_pacing_witness :
    (∀ j ∈ [Job.mk 0 100, Job.mk 0 2500, Job.mk 0 10], 0 ≤ j.duration)
    ∧ (List.Chain'
        (fun a b => a.finish ≤ b.start ∧ a.start + 1000 ≤ b.start)
        (runJobs 1000 [Job.mk 0 100, Job.mk 0 2500, Job.mk 0 10])
      ∧ List.Pairwise (fun a b => a.finish ≤ b.start)
        (runJobs 1000 [Job.mk 0 100, Job.mk 0 2500, Job.mk 0 10])) :=
  ⟨by decide,
   scheduler_pacing_and_exclusivity 1000
     [Job.mk 0 100, Job.mk 0 2500, Job.mk 0 10] (by decide)⟩

/-! ### C6 - newPage retries exactly once -/

/-- C6: when the first attempt inside `newPage` fails for any reason, the
run performs exactly the sequence attempt 0, forced relaunch, attempt 1,
and the second attempt's outcome - error included - is surfaced to the
caller unchanged; when the first attempt succeeds, no relaunch and no
retry happen.  In particular `newPage` never performs more than two
attempts or more than one relaunch. -/
theorem newPage_retries_exactly_once (attempt : Nat → Except String String) :
    (∀ e, attempt 0 = Except.error e →
      newPageRun attempt =
        (attempt 1,
         [NewPageAction.attempt 0, NewPageAction.relaunch, NewPageAction.attempt 1]))
    ∧ (∀ p, attempt 0 = Except.ok p →
        newPageRun attempt = (Except.ok p, [NewPageAction.attempt 0])) := by
  constructor
  · intro e he
    simp [newPageRun, he]
  · intro p hp
    simp [newPageRun, hp]

/-- C6 witness: both attempts fail; the run is attempt, relaunch, attempt,
and the second error is the one surfaced. -/
theorem newPage_retries_exactly_once_witness :
    (fun n => if n = 0 then (Except.error "boom" : Except String String)
              else Except.error "boom2") 0 = Except.error "boom"
    ∧ newPageRun
        (fun n => if n = 0 then (Except.error "boom" : Except String String)
                  else Except.error "boom2")
      = (Except.error "boom2",
         [NewPageAction.attempt 0, NewPageAction.relaunch, NewPageAction.attempt 1]) :=
  ⟨rfl,
   (newPage_retries_exactly_once
      (fun n => if n = 0 then (Except.error "boom" : Except String String)
                else Except.error "boom2")).1 "boom" rfl⟩

/-! ### C7 - heuristic extraction fallback -/

theorem mem_of_dedupFirst_go :
    ∀ (l seen : List String) (x : String), x ∈ dedupFirst.go seen l → x ∈ l := by
  intro l
  induction l with
  | nil => intro seen x h; simp [dedupFirst.go] at h
  | cons a as ih =>
    intro seen x h
    rw [dedupFirst.go] at h
    split at h
    · exact List.mem_cons_of_mem _ (ih _ _ h)
    · rcases List.mem_cons.mp h with h1 | h2
      · exact h1 ▸ List.mem_cons_self _ _
      · exact List.mem_cons_of_mem _ (ih _ _ h2)

/-- Every heuristic line is a non-empty cleaned span text. -/
theorem heuristicLines_ne_empty {el : DomElement} {x : String}
    (h : x ∈ heuristicLines el) : x ≠ "" := by
  unfold heuristicLines dedupFirst at h
  have h1 := List.mem_of_mem_take h
  have h2 := mem_of_dedupFirst_go _ _ _ h1
  have h3 := List.mem_filter.mp h2
  simpa using h3.2

/-- C7: for a work-history list item where none of the structure-specific
selectors yields text, the heuristic span scan supplies the values: with
at least two distinct non-empty span texts present, both `position` and
`company` are non-empty; with no plausible span text at all, both are the
explicit empty string - the extractor is a total function and never
throws. -/
theorem extraction_heuristic_fallback (main : DomElement)
    (hpos : pick main positionSelectors = "")
    (hcomp : pick main companySelectors = "") :
    (2 ≤ (heuristicLines main).length →
      extractPosition main ≠ "" ∧ extractCompany main ≠ "")
    ∧ (heuristicLines main = [] →
        extractPosition main = "" ∧ extractCompany main = "") := by
  constructor
  · intro hlen
    rcases hl : heuristicLines main with _ | ⟨a, _ | ⟨b, rest⟩⟩
    · rw [hl] at hlen; simp at hlen
    · rw [hl] at hlen; simp at hlen
    · have ha : a ∈ heuristicLines main := by rw [hl]; simp
      have hb : b ∈ heuristicLines main := by rw [hl]; simp
      constructor
      · simpa [extractPosition, hpos, hl] using heuristicLines_ne_empty ha
      · simpa [extractCompany, hcomp, hl] using heuristicLines_ne_empty hb
  · intro hl
    constructor
    · simp [extractPosition, hpos, hl]
    · simp [extractCompany, hcomp, hl]

/-- C7 witness: an item whose DOM fragment has no selector hits but two
generic span texts yields non-empty heuristic values. -/
theorem extraction_heuristic_fallback_witness :
    pick { spans := ["Engineer", "Acme Corp"] } positionSelectors = ""
    ∧ pick { spans := ["Engineer", "Acme Corp"] } companySelectors = ""
    ∧ 2 ≤ (heuristicLines { spans := ["Engineer", "Acme Corp"] }).length
    ∧ (extractPosition { spans := ["Engineer", "Acme Corp"] } ≠ ""
       ∧ extractCompany { spans := ["Engineer", "Acme Corp"] } ≠ "") :=
  ⟨by decide, by decide, by decide,
   (extraction_heuristic_fallback { spans := ["Engineer", "Acme Corp"] }
      (by decide) (by decide)).1 (by decide)⟩

/-! ### C2 - the scheduled entry point and rejection -/

/-- A job environment with no session file on disk and no configured
credentials: `loadSession` returns false at once and
`authenticateLinkedIn` reaches its `throw new Error(Missing
LINKEDIN_EMAIL / LINKEDIN_PASSWORD env vars)` site. -/
def noCredentialsWorld : ScrapeWorld :=
  { newPageResult := Except.ok (), clock := 0
    sessionFile := ⟨none, none⟩, sessionValidates := false
    sessionCheckUrlAuthed := false, hasCredentials := false
    preLoginNav := Except.ok (), loginInputsFound := false
    postLoginNav := Except.ok ()
    warmDetails := Except.ok (), warmMainRetry := Except.ok ()
    warmMainProfile := Except.ok ()
    detailItems := Except.ok [], mainItems := Except.ok []
    basics := Except.ok ⟨"", "", "", ""⟩ }

/-- C2 counterexample: with no session file and no credentials configured,
`analyzeLinkedInProfile` rejects with a hard error instead of resolving
with a fallback placeholder - the live `scrapeLinkedInProfile` has no
catch-all around authentication (the `fallbackProfile` catch exists only
in a superseded revision of the scraper). -/
theorem scrape_rejects_on_missing_credentials :
    analyzeLinkedInProfile noCredentialsWorld
      = ScrapeOutcome.err ScrapeErr.missingCredentials := rfl

/-- C2 (amended): `analyzeLinkedInProfile` resolves with a well-formed
result whenever authentication completes (which in the live code means the
fresh-login path, since a stored session that validates makes
`loadSession` - and hence the job - hang, see
`loadSession_never_returns_true`) and the unguarded navigation warm-ups
and the basics evaluation succeed.  Experience-extraction failures never
cause a rejection - they are caught and degrade to the main-page retry or
an empty work history.  The job can however reject: on page creation
failing twice, missing credentials, a failing unguarded
navigation/evaluate step, no login form found, or a throwing basics
evaluation. -/
theorem scrape_resolves_when_authenticated (w : ScrapeWorld) (b : Basics)
    (hauth : authenticateLinkedIn w = ScrapeOutcome.ok ())
    (hwd : w.warmDetails = Except.ok ())
    (hwr : w.warmMainRetry = Except.ok ())
    (hwm : w.warmMainProfile = Except.ok ())
    (hbasics : w.basics = Except.ok b) :
    analyzeLinkedInProfile w =
      ScrapeOutcome.ok
        { name := b.name, title := b.title, location := b.location
          summary := b.summary
          workHistory :=
            if (extractExperienceItems (caughtItems w.detailItems)).isEmpty then
              extractExperienceItems (caughtItems w.mainItems)
            else extractExperienceItems (caughtItems w.detailItems)
          education := [], skills := [], connections := 0 } := by
  simp only [analyzeLinkedInProfile, scrapeLinkedInProfile, hauth, hwd]
  by_cases hche : (extractExperienceItems (caughtItems w.detailItems)).isEmpty
  · simp [hche, hwr, scrapeFinish, hwm, hbasics]
  · simp [hche, scrapeFinish, hwm, hbasics]

/-- An environment where fresh login succeeds (no session file on disk,
credentials present, login form found, navigation fine) but both
experience extractions reject: the job still resolves. -/
def extractionFailedWorld : ScrapeWorld :=
  { newPageResult := Except.ok (), clock := 0
    sessionFile := ⟨none, none⟩, sessionValidates := false
    sessionCheckUrlAuthed := false, hasCredentials := true
    preLoginNav := Except.ok (), loginInputsFound := true
    postLoginNav := Except.ok ()
    warmDetails := Except.ok (), warmMainRetry := Except.ok ()
    warmMainProfile := Except.ok ()
    detailItems := Except.error "evaluate crashed"
    mainItems := Except.error "evaluate crashed"
    basics := Except.ok ⟨"Jane Doe", "Engineer", "Berlin", ""⟩ }

/-- C2 witness: the amended theorem applied to a concrete fresh-login
environment in which both extraction passes reject; the job resolves with
an empty work history. -/
theorem scrape_resolves_when_authenticated_witness :
    authenticateLinkedIn extractionFailedWorld = ScrapeOutcome.ok ()
    ∧ extractionFailedWorld.warmDetails = Except.ok ()
    ∧ extractionFailedWorld.basics
        = Except.ok ⟨"Jane Doe", "Engineer", "Berlin", ""⟩
    ∧ analyzeLinkedInProfile extractionFailedWorld =
        ScrapeOutcome.ok
          { name := "Jane Doe", title := "Engineer", location := "Berlin"
            summary := "", workHistory := [], education := [], skills := []
            connections := 0 } :=
  ⟨rfl, rfl, rfl, by
    have h := scrape_resolves_when_authenticated extractionFailedWorld
      ⟨"Jane Doe", "Engineer", "Berlin", ""⟩ rfl rfl rfl rfl rfl
    simpa using h⟩

/-! ### C8 - end-to-end tenure scenario -/

/-- First visible work-history entry of the scenario, with tenure text
`Jan 2022 - present`. -/
def tenureItem1 : ExpListItem :=
  { main :=
    { nodes := [(".mr1.hoverable-link-text.t-bold span", "Senior Engineer"),
                (".t-14.t-normal", "Acme Corp"),
                (".t-14.t-normal.t-black--light", "Jan 2022 – present · 2 yrs")] } }

/-- Second visible work-history entry of the scenario, with tenure text
`May 2019 - Dec 2021`. -/
def tenureItem2 : ExpListItem :=
  { main :=
    { nodes := [(".mr1.hoverable-link-text.t-bold span", "Engineer"),
                (".t-14.t-normal", "Initech"),
                (".t-14.t-normal.t-black--light", "May 2019 – Dec 2021 · 2 yrs 8 mos")] } }

/-- The end-to-end scenario environment.  Authentication goes through the
fresh-login path (no session file on disk - the only way the live code can
complete authentication, since a stored validating session hangs
`loadSession`); the details page shows the two entries and basics
succeed. -/
def tenureScenarioWorld : ScrapeWorld :=
  { newPageResult := Except.ok (), clock := 0
    sessionFile := ⟨none, none⟩, sessionValidates := false
    sessionCheckUrlAuthed := false, hasCredentials := true
    preLoginNav := Except.ok (), loginInputsFound := true
    postLoginNav := Except.ok ()
    warmDetails := Except.ok (), warmMainRetry := Except.ok ()
    warmMainProfile := Except.ok ()
    detailItems := Except.ok [tenureItem1, tenureItem2]
    mainItems := Except.ok []
    basics := Except.ok ⟨"Jane Doe", "Senior Engineer", "Berlin", ""⟩ }

/-- The raw profile the live pipeline produces for the scenario. -/
def tenureScenarioRaw : RawProfile :=
  { name := "Jane Doe", title := "Senior Engineer", location := "Berlin"
    summary := ""
    workHistory :=
      [{ position := "Senior Engineer", company := "Acme Corp"
         duration := "Jan 2022 – present · 2 yrs", description := "" },
       { position := "Engineer", company := "Initech"
         duration := "May 2019 – Dec 2021 · 2 yrs 8 mos", description := "" }]
    education := [], skills := [], connections := 0 }

/-- C8 counterexample: on the two-entry tenure scenario the job resolves
and both entries come back in order with their tenure strings in
`duration`, but `startDate` and `endDate` are empty strings, not parsed
month-year pairs - the live extractor produces no date fields (the
`extractStart`/`extractEnd` parsers exist only in a superseded revision of
the scraper). -/
theorem pipeline_dates_not_parsed :
    analyzeLinkedInProfile tenureScenarioWorld = ScrapeOutcome.ok tenureScenarioRaw
    ∧ ((parseLinkedInProfile tenureScenarioRaw).workHistory.map
        (fun wrk => (wrk.startDate, wrk.endDate)))
      = [("", ""), ("", "")]
    ∧ ("" : String) ≠ "Jan 2022" :=
  ⟨rfl, by decide, by decide⟩

/-- C8 (amended): on the two-entry tenure scenario the pipeline resolves
successfully with both entries in the order encountered and the tenure
strings preserved in `duration`, while `startDate`/`endDate` are the empty
string, since the live extraction performs no month-year parsing. -/
theorem pipeline_scenario_preserves_durations :
    analyzeLinkedInProfile tenureScenarioWorld = ScrapeOutcome.ok tenureScenarioRaw
    ∧ parseLinkedInProfile tenureScenarioRaw =
      { name := "Jane Doe", title := "Senior Engineer", location := "Berlin"
        summary := "No summary available"
        workHistory :=
          [{ company := "Acme Corp", position := "Senior Engineer"
             duration := "Jan 2022 – present · 2 yrs", startDate := ""
             endDate := "", description := "" },
           { company := "Initech", position := "Engineer"
             duration := "May 2019 – Dec 2021 · 2 yrs 8 mos", startDate := ""
             endDate := "", description := "" }]
        education := [], skills := [], connections := 0
        profileStrength := 60 } :=
  ⟨rfl, by decide⟩

/-! ### C9 - session store mutex coverage -/

/-- C9: the session-store operations do *not* serialize through the
in-process mutex; the claim describes the code's intended design (the
source labels the lock an in-process mutex and wraps save/load in
acquire/release) but the implementation fails it, witnessed by two valid
event-loop runs of the real `acquireLock`/`release` semantics:

* run 1 - `ensureFreshSession` never calls `acquireLock`, so its read of
  the session record executes *inside* `saveSession`'s critical section,
  between that save's acquire and release;
* run 2 - three concurrent `saveSession` calls: op 1 parks on the lock,
  op 0's release wakes it without handing it the lock (`lockPromise` is
  nulled), op 2 then acquires the free lock, and ops 1 and 2 interleave
  their file writes action by action even though both wrapped their work
  in acquire/release.

(`loadSession` exhibits a third defect - its validation-success path
blocks forever at the nested acquire, see `loadSessionOutcome` and
`loadSession_never_returns_true`.) -/
theorem session_mutex_interleaving :
    runSchedule
        (initMutexState [saveSessionTrace true, ensureFreshSessionTrace false])
        [0, 0, 1, 0, 0, 0, 0]
      = some [(0, FsAction.acquire), (0, FsAction.fwrite), (1, FsAction.fread),
              (0, FsAction.fread), (0, FsAction.fwrite), (0, FsAction.fwrite),
              (0, FsAction.release)]
    ∧ runSchedule
        (initMutexState
          [saveSessionTrace true, saveSessionTrace true, saveSessionTrace true])
        [0, 1, 0, 0, 0, 0, 0, 2, 1, 2, 1, 2, 1, 2, 1, 2, 1, 2]
      = some [(0, FsAction.acquire), (0, FsAction.fwrite), (0, FsAction.fread),
              (0, FsAction.fwrite), (0, FsAction.fwrite), (0, FsAction.release),
              (2, FsAction.acquire), (1, FsAction.fwrite), (2, FsAction.fwrite),
              (1, FsAction.fread), (2, FsAction.fread), (1, FsAction.fwrite),
              (2, FsAction.fwrite), (1, FsAction.fwrite), (2, FsAction.fwrite),
              (1, FsAction.release), (2, FsAction.release)] := by
  decide

end DigitalRecruiter
